import Mathlib

/-!
Verification of the `RENet` preprocessing helper (`PreTransform`) and the
neighbor-aggregation step of `RENet.forward`, shallowly embedded from
`torch_geometric/nn/models/re_net.py`.

The tracker keeps, per role (subject / object), a growable buffer indexed by
entity id; each entity owns `seq_len` time slots, each slot a list of
`(partner, relation)` pairs.
-/

set_option maxRecDepth 100000

/-- One time slot: the (partner, relation) pairs recorded in that slot.
In the Python source a pair is the two-element list `[partner, rel]`. -/
abbrev Slot := List (Nat × Nat)

/-- Per-entity history: one list of pairs per retained time slot, oldest first. -/
abbrev EntityHist := List Slot

/-- A role buffer: one `EntityHist` per entity id. -/
abbrev Hist := List EntityHist

/-- State of the `PreTransform` object: `seq_len`, growth increment `inc`
(5000 in `__init__`), last seen timestamp `t_last`, and the two role buffers
`sub_hist` / `obj_hist`. -/
structure Tracker where
  seq_len : Nat
  inc : Nat
  t_last : Nat
  sub_hist : Hist
  obj_hist : Hist
  deriving DecidableEq

/-- An incoming event `(data.sub, data.rel, data.obj, data.t)`. -/
structure Event where
  sub : Nat
  rel : Nat
  obj : Nat
  t : Nat
  deriving DecidableEq

/-- Apply `f` to the element at position `i`, if any (used to embed in-place
updates of one buffer cell such as `hist[sub][-1].append(...)`). -/
def listModify (f : α → α) : Nat → List α → List α
  | _, [] => []
  | 0, a :: as => f a :: as
  | n + 1, a :: as => a :: listModify f n as

/-- `increase_hist_node_size`: `hist + torch.zeros((inc, seq_len, 0)).tolist()`,
i.e. append `inc` fresh entities, each with `seq_len` empty slots. -/
def Tracker.increase_hist_node_size (tr : Tracker) (hist : Hist) : Hist :=
  hist ++ List.replicate tr.inc (List.replicate tr.seq_len ([] : Slot))

/-- `RENet.pre_transform(seq_len)`: a fresh `PreTransform` with `inc = 5000`,
`t_last = 0` and both buffers grown once from the empty list. -/
def Tracker.init (seq_len : Nat) : Tracker :=
  let tr0 : Tracker := ⟨seq_len, 5000, 0, [], []⟩
  { tr0 with
    sub_hist := tr0.increase_hist_node_size []
    obj_hist := tr0.increase_hist_node_size [] }

/-- The capacity check at the top of `__call__`:
`if max(sub, obj) + 1 > len(self.sub_hist): grow both buffers once`. -/
def ensure_capacity (tr : Tracker) (node : Nat) : Tracker :=
  if node + 1 > tr.sub_hist.length then
    { tr with
      sub_hist := tr.increase_hist_node_size tr.sub_hist
      obj_hist := tr.increase_hist_node_size tr.obj_hist }
  else tr

/-- The body of `get_history` acting on one entity row `hist[node]`:
concatenate the pairs of all `seq_len` slots (`hists`), tag each pair with
its slot index (`ts`), keep the pairs whose relation equals `rel`, and
return the matching partner ids and slot indices as two parallel lists. -/
def get_history_from (seq_len : Nat) (entity : EntityHist) (rel : Nat) :
    List Nat × List Nat :=
  let hists := (List.range seq_len).flatMap (fun s => entity.getD s [])
  let ts := (List.range seq_len).flatMap
    (fun s => List.replicate (entity.getD s []).length s)
  let pairs := hists.zip ts
  ((pairs.filter (fun p => p.1.2 == rel)).map (fun p => p.1.1),
   (pairs.filter (fun p => p.1.2 == rel)).map (fun p => p.2))

/-- `get_history(hist, node, rel)`: run the slot scan on row `hist[node]`. -/
def get_history (seq_len : Nat) (hist : Hist) (node rel : Nat) :
    List Nat × List Nat :=
  get_history_from seq_len (hist.getD node []) rel

/-- `step(hist)`: for every entity, drop the slot at index 0
(`hist[i] = hist[i][1:]`) and append a fresh empty slot (`hist[i].append([])`). -/
def step (hist : Hist) : Hist :=
  hist.map (fun ent => ent.drop 1 ++ [([] : Slot)])

/-- The `if t > self.t_last` block of `__call__`: shift both buffers and
update `t_last`; otherwise leave the tracker unchanged. -/
def advance_if_needed (tr : Tracker) (t : Nat) : Tracker :=
  if t > tr.t_last then
    { tr with sub_hist := step tr.sub_hist, obj_hist := step tr.obj_hist,
              t_last := t }
  else tr

/-- Append a pair to the last slot of an entity (`hist[node][-1].append(p)`). -/
def appendToLastSlot (ent : EntityHist) (p : Nat × Nat) : EntityHist :=
  listModify (fun slot => slot ++ [p]) (ent.length - 1) ent

/-- The record block of `__call__`:
`self.sub_hist[sub][-1].append([obj, rel])` and
`self.obj_hist[obj][-1].append([sub, rel])`. -/
def record (tr : Tracker) (sub rel obj : Nat) : Tracker :=
  { tr with
    sub_hist := listModify (fun ent => appendToLastSlot ent (obj, rel))
      sub tr.sub_hist
    obj_hist := listModify (fun ent => appendToLastSlot ent (sub, rel))
      obj tr.obj_hist }

/-- The per-event query results stored into the data object by `__call__`
(`data.h_sub`, `data.h_sub_t`, `data.h_obj`, `data.h_obj_t`). -/
structure HistResult where
  h_sub : List Nat
  h_sub_t : List Nat
  h_obj : List Nat
  h_obj_t : List Nat
  deriving DecidableEq

/-- `PreTransform.__call__(data)`: ensure capacity for `max(sub, obj)`,
capture both history queries, advance the window if the timestamp grew,
then record the event. Returns the captured queries and the new state. -/
def process_event (tr : Tracker) (e : Event) : HistResult × Tracker :=
  let tr1 := ensure_capacity tr (max e.sub e.obj)
  let rs := get_history tr1.seq_len tr1.sub_hist e.sub e.rel
  let ro := get_history tr1.seq_len tr1.obj_hist e.obj e.rel
  let tr2 := advance_if_needed tr1 e.t
  let tr3 := record tr2 e.sub e.rel e.obj
  (⟨rs.1, rs.2, ro.1, ro.2⟩, tr3)

/-- The role an entity plays in an event. -/
inductive Role where
  | subjectRole
  | objectRole
  deriving DecidableEq

/-- A history query as a state-passing operation: `get_history` assigns no
attribute of `self`, so the state component is returned as is. -/
def Tracker.query (tr : Tracker) (role : Role) (node rel : Nat) :
    (List Nat × List Nat) × Tracker :=
  (get_history tr.seq_len
    (match role with
     | Role.subjectRole => tr.sub_hist
     | Role.objectRole => tr.obj_hist) node rel, tr)

/-- Fold a whole event stream through the tracker, starting from
`RENet.pre_transform(seq_len)`. -/
def run_events (seq_len : Nat) (events : List Event) : Tracker :=
  events.foldl (fun tr e => (process_event tr e).2) (Tracker.init seq_len)

/-! ### Basic lemmas about the embedded operations -/

theorem listModify_length (f : α → α) (i : Nat) (l : List α) :
    (listModify f i l).length = l.length := by
  induction l generalizing i with
  | nil => cases i <;> rfl
  | cons a as ih =>
    cases i with
    | zero => rfl
    | succ n => simpa [listModify] using ih n

theorem listModify_zero_cons (f : α → α) (a : α) (l : List α) :
    listModify f 0 (a :: l) = f a :: l := rfl

theorem listModify_succ_cons (f : α → α) (n : Nat) (a : α) (l : List α) :
    listModify f (n + 1) (a :: l) = a :: listModify f n l := rfl

theorem listModify_mem (f : α → α) (i : Nat) (l : List α) (P : α → Prop)
    (h1 : ∀ y ∈ l, P y) (h2 : ∀ y ∈ l, P (f y)) :
    ∀ x ∈ listModify f i l, P x := by
  induction l generalizing i with
  | nil => intro x hx; cases i <;> cases hx
  | cons a as ih =>
    cases i with
    | zero =>
      intro x hx
      rcases List.mem_cons.mp hx with rfl | hx
      · exact h2 a (List.mem_cons_self a as)
      · exact h1 x (List.mem_cons.mpr (Or.inr hx))
    | succ n =>
      intro x hx
      rcases List.mem_cons.mp hx with rfl | hx
      · exact h1 x (List.mem_cons_self x as)
      · exact ih n (fun y hy => h1 y (List.mem_cons.mpr (Or.inr hy)))
          (fun y hy => h2 y (List.mem_cons.mpr (Or.inr hy))) x hx

theorem getD_replicate_of_lt (a d : α) {i n : Nat} (h : i < n) :
    (List.replicate n a).getD i d = a := by
  rw [List.getD_eq_getElem _ _ (by simpa using h)]
  exact List.getElem_replicate a _

theorem increase_hist_node_size_length (tr : Tracker) (hist : Hist) :
    (tr.increase_hist_node_size hist).length = hist.length + tr.inc := by
  simp [Tracker.increase_hist_node_size]

theorem init_sub_hist (s : Nat) :
    (Tracker.init s).sub_hist = List.replicate 5000 (List.replicate s []) :=
  List.nil_append _

theorem init_obj_hist (s : Nat) :
    (Tracker.init s).obj_hist = List.replicate 5000 (List.replicate s []) :=
  List.nil_append _

theorem init_seq_len (s : Nat) : (Tracker.init s).seq_len = s := rfl

theorem init_inc (s : Nat) : (Tracker.init s).inc = 5000 := rfl

theorem init_t_last (s : Nat) : (Tracker.init s).t_last = 0 := rfl

theorem init_sub_hist_length (s : Nat) : (Tracker.init s).sub_hist.length = 5000 := by
  rw [init_sub_hist]; exact List.length_replicate 5000 _

theorem init_obj_hist_length (s : Nat) : (Tracker.init s).obj_hist.length = 5000 := by
  rw [init_obj_hist]; exact List.length_replicate 5000 _

theorem ensure_capacity_of_le (tr : Tracker) (n : Nat)
    (h : n + 1 ≤ tr.sub_hist.length) : ensure_capacity tr n = tr := by
  unfold ensure_capacity
  rw [if_neg (by omega)]

theorem ensure_capacity_of_gt (tr : Tracker) (n : Nat)
    (h : tr.sub_hist.length < n + 1) :
    ensure_capacity tr n =
      { tr with sub_hist := tr.increase_hist_node_size tr.sub_hist,
                obj_hist := tr.increase_hist_node_size tr.obj_hist } := by
  unfold ensure_capacity
  rw [if_pos (by omega)]

theorem ensure_capacity_seq_len (tr : Tracker) (n : Nat) :
    (ensure_capacity tr n).seq_len = tr.seq_len := by
  unfold ensure_capacity; split <;> rfl

theorem ensure_capacity_inc (tr : Tracker) (n : Nat) :
    (ensure_capacity tr n).inc = tr.inc := by
  unfold ensure_capacity; split <;> rfl

theorem ensure_capacity_t_last (tr : Tracker) (n : Nat) :
    (ensure_capacity tr n).t_last = tr.t_last := by
  unfold ensure_capacity; split <;> rfl

theorem advance_if_needed_of_le (tr : Tracker) (t : Nat) (h : t ≤ tr.t_last) :
    advance_if_needed tr t = tr := by
  unfold advance_if_needed
  rw [if_neg (by omega)]

theorem advance_if_needed_of_gt (tr : Tracker) (t : Nat) (h : tr.t_last < t) :
    advance_if_needed tr t =
      { tr with sub_hist := step tr.sub_hist, obj_hist := step tr.obj_hist,
                t_last := t } := by
  unfold advance_if_needed
  rw [if_pos (by omega)]

theorem advance_if_needed_seq_len (tr : Tracker) (t : Nat) :
    (advance_if_needed tr t).seq_len = tr.seq_len := by
  unfold advance_if_needed; split <;> rfl

theorem record_sub_hist (tr : Tracker) (sub rel obj : Nat) :
    (record tr sub rel obj).sub_hist =
      listModify (fun ent => appendToLastSlot ent (obj, rel)) sub tr.sub_hist := rfl

theorem record_obj_hist (tr : Tracker) (sub rel obj : Nat) :
    (record tr sub rel obj).obj_hist =
      listModify (fun ent => appendToLastSlot ent (sub, rel)) obj tr.obj_hist := rfl

theorem record_seq_len (tr : Tracker) (sub rel obj : Nat) :
    (record tr sub rel obj).seq_len = tr.seq_len := rfl

theorem record_t_last (tr : Tracker) (sub rel obj : Nat) :
    (record tr sub rel obj).t_last = tr.t_last := rfl

theorem process_event_state (tr : Tracker) (e : Event) :
    (process_event tr e).2 =
      record (advance_if_needed (ensure_capacity tr (max e.sub e.obj)) e.t)
        e.sub e.rel e.obj := rfl

theorem process_event_h_sub (tr : Tracker) (e : Event) :
    ((process_event tr e).1.h_sub, (process_event tr e).1.h_sub_t) =
      get_history (ensure_capacity tr (max e.sub e.obj)).seq_len
        (ensure_capacity tr (max e.sub e.obj)).sub_hist e.sub e.rel := rfl

theorem process_event_h_obj (tr : Tracker) (e : Event) :
    ((process_event tr e).1.h_obj, (process_event tr e).1.h_obj_t) =
      get_history (ensure_capacity tr (max e.sub e.obj)).seq_len
        (ensure_capacity tr (max e.sub e.obj)).obj_hist e.obj e.rel := rfl

theorem step_length (hist : Hist) : (step hist).length = hist.length := by
  simp [step]

theorem flatMap_const_nil (l : List α) :
    (l.flatMap fun _ => ([] : List β)) = [] := by
  induction l with
  | nil => rfl
  | cons a as ih => simp [ih]

theorem get_history_from_all_empty (seq_len rel : Nat) (entity : EntityHist)
    (h : ∀ slot ∈ entity, slot = []) :
    get_history_from seq_len entity rel = ([], []) := by
  have hh : ∀ s : Nat, entity[s]?.getD ([] : Slot) = [] := by
    intro s
    by_cases hs : s < entity.length
    · rw [List.getElem?_eq_getElem hs]
      exact h _ (List.getElem_mem hs)
    · rw [List.getElem?_eq_none (by omega)]
      rfl
  simp [get_history_from, List.getD, hh, flatMap_const_nil]

theorem process_event_seq_len (tr : Tracker) (e : Event) :
    (process_event tr e).2.seq_len = tr.seq_len := by
  rw [process_event_state, record_seq_len, advance_if_needed_seq_len,
    ensure_capacity_seq_len]

/-! ### The concrete two-event scenario of the spec -/

theorem sub_hist_after_e1 :
    (process_event (Tracker.init 2) ⟨0, 0, 1, 0⟩).2.sub_hist =
      [[], [(1, 0)]] :: List.replicate 4999 (List.replicate 2 []) := by
  rw [process_event_state]
  rw [ensure_capacity_of_le _ _ (by rw [init_sub_hist_length]; decide)]
  rw [advance_if_needed_of_le _ _ (by decide)]
  rw [record_sub_hist]
  rw [init_sub_hist]
  rw [show (5000 : Nat) = 4999 + 1 from rfl, List.replicate_succ]
  dsimp only
  rw [listModify_zero_cons]
  rfl

theorem c2_capture :
    ((process_event (process_event (Tracker.init 2) ⟨0, 0, 1, 0⟩).2
        ⟨0, 0, 2, 1⟩).1.h_sub,
     (process_event (process_event (Tracker.init 2) ⟨0, 0, 1, 0⟩).2
        ⟨0, 0, 2, 1⟩).1.h_sub_t) = ([1], [1]) := by
  rw [process_event_h_sub]
  rw [ensure_capacity_of_le _ _
    (by rw [sub_hist_after_e1, List.length_cons, List.length_replicate]; decide)]
  rw [get_history, sub_hist_after_e1, process_event_seq_len, init_seq_len]
  rw [List.getD_cons_zero]
  rfl

/-- C2 (counterexample): with `seq_len = 2`, after processing `(0,0,1,t=0)`
and `(0,0,2,t=1)`, the subject-role history captured for the second event at
`(entity 0, relation 0)` is not `partner = [1], slot = [0]`: the query runs
before the `t = 1` window advance, so the `t = 0` event is still in slot 1. -/
theorem claim_C2_counterexample :
    ¬ (((process_event (process_event (Tracker.init 2) ⟨0, 0, 1, 0⟩).2
          ⟨0, 0, 2, 1⟩).1.h_sub,
        (process_event (process_event (Tracker.init 2) ⟨0, 0, 1, 0⟩).2
          ⟨0, 0, 2, 1⟩).1.h_sub_t) = ([1], [0])) := by
  intro h
  exact absurd (c2_capture.symm.trans h) (by decide)

/-- C2 (amended): with `seq_len = 2`, after processing `(0,0,1,t=0)` and then
`(0,0,2,t=1)`, the subject-role history query for `(entity 0, relation 0)`
captured while processing the second event (before it is recorded, and
before the `t = 1` advance) returns partner sequence `[1]` and slot-index
sequence `[1]`. -/
theorem claim_C2_amended :
    ((process_event (process_event (Tracker.init 2) ⟨0, 0, 1, 0⟩).2
        ⟨0, 0, 2, 1⟩).1.h_sub,
     (process_event (process_event (Tracker.init 2) ⟨0, 0, 1, 0⟩).2
        ⟨0, 0, 2, 1⟩).1.h_sub_t) = ([1], [1]) :=
  c2_capture

/-! ### Capacity growth (C1, C7, C10) -/

/-- C1 (counterexample): on a fresh tracker (capacity 5000), the capacity
check for entity id 10000 grows the buffer once, to length 10000, which is
still smaller than 10000 + 1 — the claimed bound fails when the id exceeds
the current capacity by more than one growth increment. -/
theorem claim_C1_counterexample :
    ¬ (10000 + 1 ≤ (ensure_capacity (Tracker.init 1) 10000).sub_hist.length) := by
  rw [ensure_capacity_of_gt _ _ (by rw [init_sub_hist_length]; decide)]
  dsimp only
  rw [increase_hist_node_size_length, init_sub_hist_length, init_inc]
  decide

/-- C1 (amended): whenever entity id `e` exceeds the current capacity by at
most one growth increment (`e + 1 ≤ capacity + inc`) and both buffers have
the same length, the capacity-ensuring step leaves both buffers with length
at least `e + 1`, and an entity at or beyond the previous capacity
(in particular one never seen) ends up with exactly `seq_len` empty slots
in both buffers. -/
theorem claim_C1_amended (tr : Tracker) (e : Nat)
    (hlen : tr.obj_hist.length = tr.sub_hist.length)
    (hcap : e + 1 ≤ tr.sub_hist.length + tr.inc) :
    e + 1 ≤ (ensure_capacity tr e).sub_hist.length ∧
    e + 1 ≤ (ensure_capacity tr e).obj_hist.length ∧
    (tr.sub_hist.length ≤ e →
      (ensure_capacity tr e).sub_hist.getD e [] =
        List.replicate tr.seq_len [] ∧
      (ensure_capacity tr e).obj_hist.getD e [] =
        List.replicate tr.seq_len []) := by
  by_cases h : tr.sub_hist.length < e + 1
  · rw [ensure_capacity_of_gt _ _ h]
    dsimp only
    rw [increase_hist_node_size_length, increase_hist_node_size_length, hlen]
    refine ⟨by omega, by omega, fun hse => ?_⟩
    constructor
    · rw [Tracker.increase_hist_node_size,
        List.getD_eq_getElem _ _ (by rw [List.length_append, List.length_replicate]; omega),
        List.getElem_append_right (by omega)]
      exact List.getElem_replicate _ _
    · rw [Tracker.increase_hist_node_size,
        List.getD_eq_getElem _ _ (by rw [List.length_append, List.length_replicate]; omega),
        List.getElem_append_right (by omega)]
      exact List.getElem_replicate _ _
  · rw [ensure_capacity_of_le _ _ (by omega)]
    exact ⟨by omega, by omega, fun hse => absurd hse (by omega)⟩

/-- C1 (witness): the amended statement instantiated on a fresh tracker with
`seq_len = 1` and entity id 5000 (exactly at the old capacity). -/
theorem claim_C1_witness :
    (Tracker.init 1).obj_hist.length = (Tracker.init 1).sub_hist.length ∧
    5000 + 1 ≤ (Tracker.init 1).sub_hist.length + (Tracker.init 1).inc ∧
    (5000 + 1 ≤ (ensure_capacity (Tracker.init 1) 5000).sub_hist.length ∧
     5000 + 1 ≤ (ensure_capacity (Tracker.init 1) 5000).obj_hist.length ∧
     ((Tracker.init 1).sub_hist.length ≤ 5000 →
       (ensure_capacity (Tracker.init 1) 5000).sub_hist.getD 5000 [] =
         List.replicate (Tracker.init 1).seq_len [] ∧
       (ensure_capacity (Tracker.init 1) 5000).obj_hist.getD 5000 [] =
         List.replicate (Tracker.init 1).seq_len [])) := by
  have h1 : (Tracker.init 1).obj_hist.length = (Tracker.init 1).sub_hist.length := by
    rw [init_obj_hist_length, init_sub_hist_length]
  have h2 : 5000 + 1 ≤ (Tracker.init 1).sub_hist.length + (Tracker.init 1).inc := by
    rw [init_sub_hist_length, init_inc]; decide
  exact ⟨h1, h2, claim_C1_amended (Tracker.init 1) 5000 h1 h2⟩

/-- C7: on a fresh tracker (`seq_len = 2`) the capacity check for entity id
5000 grows both buffers from capacity 5000 to 10000, and afterwards the
capacity check is a no-op for every already-covered entity id. -/
theorem claim_C7_growth :
    (Tracker.init 2).sub_hist.length = 5000 ∧
    (ensure_capacity (Tracker.init 2) 5000).sub_hist.length = 10000 ∧
    (ensure_capacity (Tracker.init 2) 5000).obj_hist.length = 10000 ∧
    ∀ e : Nat, e + 1 ≤ 10000 →
      ensure_capacity (ensure_capacity (Tracker.init 2) 5000) e =
        ensure_capacity (Tracker.init 2) 5000 := by
  have hgrow := ensure_capacity_of_gt (Tracker.init 2) 5000
    (by rw [init_sub_hist_length]; decide)
  have hs : (ensure_capacity (Tracker.init 2) 5000).sub_hist.length = 10000 := by
    rw [hgrow]; dsimp only
    rw [increase_hist_node_size_length, init_sub_hist_length, init_inc]
  have ho : (ensure_capacity (Tracker.init 2) 5000).obj_hist.length = 10000 := by
    rw [hgrow]; dsimp only
    rw [increase_hist_node_size_length, init_obj_hist_length, init_inc]
  refine ⟨init_sub_hist_length 2, hs, ho, fun e he => ?_⟩
  exact ensure_capacity_of_le _ _ (by rw [hs]; omega)

/-- C7 (witness): the no-op part instantiated at the already-covered
entity id 4999. -/
theorem claim_C7_witness :
    4999 + 1 ≤ 10000 ∧
    ensure_capacity (ensure_capacity (Tracker.init 2) 5000) 4999 =
      ensure_capacity (Tracker.init 2) 5000 :=
  ⟨by decide, claim_C7_growth.2.2.2 4999 (by decide)⟩

/-- C10: a freshly constructed tracker has capacity exactly 5000 in both
buffers, every entity row consists of `seq_len` empty slots, the last-seen
timestamp is 0, and the capacity check is a no-op for every id below 5000. -/
theorem claim_C10_fresh_tracker (s : Nat) :
    (Tracker.init s).sub_hist.length = 5000 ∧
    (Tracker.init s).obj_hist.length = 5000 ∧
    (∀ ent ∈ (Tracker.init s).sub_hist, ent = List.replicate s ([] : Slot)) ∧
    (∀ ent ∈ (Tracker.init s).obj_hist, ent = List.replicate s ([] : Slot)) ∧
    (Tracker.init s).t_last = 0 ∧
    (∀ e : Nat, e < 5000 → ensure_capacity (Tracker.init s) e = Tracker.init s) := by
  refine ⟨init_sub_hist_length s, init_obj_hist_length s, ?_, ?_, init_t_last s, ?_⟩
  · rw [init_sub_hist]
    intro ent h
    exact List.eq_of_mem_replicate h
  · rw [init_obj_hist]
    intro ent h
    exact List.eq_of_mem_replicate h
  · intro e he
    exact ensure_capacity_of_le _ _ (by rw [init_sub_hist_length]; omega)

/-- C10 (witness): the no-op part instantiated at `seq_len = 3`, entity 0. -/
theorem claim_C10_witness :
    0 < 5000 ∧ ensure_capacity (Tracker.init 3) 0 = Tracker.init 3 :=
  ⟨by decide, (claim_C10_fresh_tracker 3).2.2.2.2.2 0 (by decide)⟩

/-! ### Window advance (C5) and query purity (C8) -/

/-- C5: if `t` is strictly greater than the last-seen timestamp, the advance
drops slot 0 and appends one empty slot for every entity of both buffers and
sets the last-seen timestamp to `t`; if `t` is less than or equal to it, the
tracker is completely unchanged. -/
theorem claim_C5_advance (tr : Tracker) (t : Nat) :
    (tr.t_last < t →
      (advance_if_needed tr t).sub_hist =
        tr.sub_hist.map (fun ent => ent.drop 1 ++ [([] : Slot)]) ∧
      (advance_if_needed tr t).obj_hist =
        tr.obj_hist.map (fun ent => ent.drop 1 ++ [([] : Slot)]) ∧
      (advance_if_needed tr t).t_last = t) ∧
    (t ≤ tr.t_last → advance_if_needed tr t = tr) := by
  constructor
  · intro h
    rw [advance_if_needed_of_gt _ _ h]
    exact ⟨rfl, rfl, rfl⟩
  · exact advance_if_needed_of_le tr t

/-- C5 (witness): both branches instantiated on a one-entity tracker holding
one pair, advanced with `t = 1` (strictly larger) and `t = 0` (no-op). -/
theorem claim_C5_witness :
    ((Tracker.mk 1 5000 0 [[[(7, 3)]]] [[[]]]).t_last < 1 ∧
      (advance_if_needed (Tracker.mk 1 5000 0 [[[(7, 3)]]] [[[]]]) 1).sub_hist =
        [[[(7, 3)]]].map (fun ent => ent.drop 1 ++ [([] : Slot)]) ∧
      (advance_if_needed (Tracker.mk 1 5000 0 [[[(7, 3)]]] [[[]]]) 1).obj_hist =
        [[[]]].map (fun ent => ent.drop 1 ++ [([] : Slot)]) ∧
      (advance_if_needed (Tracker.mk 1 5000 0 [[[(7, 3)]]] [[[]]]) 1).t_last = 1) ∧
    (0 ≤ (Tracker.mk 1 5000 0 [[[(7, 3)]]] [[[]]]).t_last ∧
      advance_if_needed (Tracker.mk 1 5000 0 [[[(7, 3)]]] [[[]]]) 0 =
        Tracker.mk 1 5000 0 [[[(7, 3)]]] [[[]]]) :=
  ⟨⟨by decide, (claim_C5_advance (Tracker.mk 1 5000 0 [[[(7, 3)]]] [[[]]]) 1).1 (by decide)⟩,
   ⟨by decide, (claim_C5_advance (Tracker.mk 1 5000 0 [[[(7, 3)]]] [[[]]]) 0).2 (by decide)⟩⟩

/-- C8: a history query leaves the tracker state entirely unchanged — both
buffers and the last-seen timestamp are identical before and after, for
either role. -/
theorem claim_C8_query_pure (tr : Tracker) (role : Role) (node rel : Nat) :
    (tr.query role node rel).2.sub_hist = tr.sub_hist ∧
    (tr.query role node rel).2.obj_hist = tr.obj_hist ∧
    (tr.query role node rel).2.t_last = tr.t_last :=
  ⟨rfl, rfl, rfl⟩

/-! ### No self-leakage (C3) -/

theorem mem_get_history_fst {seq_len : Nat} {hist : Hist} {node rel x : Nat}
    (hx : x ∈ (get_history seq_len hist node rel).1) :
    (x, rel) ∈ (hist.getD node []).flatten := by
  rw [get_history] at hx
  unfold get_history_from at hx
  dsimp only at hx
  rcases List.mem_map.mp hx with ⟨p, hp, hpx⟩
  have hfil := List.mem_filter.mp hp
  have hrel : p.1.2 = rel := by simpa using hfil.2
  have hzip : p.1 ∈ (List.range seq_len).flatMap
      (fun s => (hist.getD node []).getD s []) := by
    obtain ⟨⟨a, b⟩, c⟩ := p
    exact (List.of_mem_zip hfil.1).1
  rcases List.mem_flatMap.mp hzip with ⟨s, hs, hmem⟩
  have hpair : p.1 = (x, rel) := by
    obtain ⟨⟨a, b⟩, c⟩ := p
    dsimp only at hpx hrel
    rw [hpx] at *
    rw [hrel]
  rw [hpair] at hmem
  by_cases hlt : s < (hist.getD node []).length
  · rw [List.getD_eq_getElem _ _ hlt] at hmem
    exact List.mem_flatten.mpr ⟨_, List.getElem_mem hlt, hmem⟩
  · rw [List.getD_eq_default _ _ (by omega)] at hmem
    cases hmem

/-- C3: the two history results captured by `process_event` are exactly the
queries evaluated on the state right after the capacity step — before the
window advance and before the event is recorded — so if the pair the event
contributes was not already present in that pre-state, the event partner
partner never appears in its own captured history, in either role. -/
theorem claim_C3_no_self_leakage (tr : Tracker) (e : Event) :
    (((process_event tr e).1.h_sub, (process_event tr e).1.h_sub_t) =
      get_history (ensure_capacity tr (max e.sub e.obj)).seq_len
        (ensure_capacity tr (max e.sub e.obj)).sub_hist e.sub e.rel) ∧
    (((process_event tr e).1.h_obj, (process_event tr e).1.h_obj_t) =
      get_history (ensure_capacity tr (max e.sub e.obj)).seq_len
        (ensure_capacity tr (max e.sub e.obj)).obj_hist e.obj e.rel) ∧
    ((e.obj, e.rel) ∉
        ((ensure_capacity tr (max e.sub e.obj)).sub_hist.getD e.sub []).flatten →
      e.obj ∉ (process_event tr e).1.h_sub) ∧
    ((e.sub, e.rel) ∉
        ((ensure_capacity tr (max e.sub e.obj)).obj_hist.getD e.obj []).flatten →
      e.sub ∉ (process_event tr e).1.h_obj) := by
  refine ⟨rfl, rfl, fun hno hmem => hno ?_, fun hno hmem => hno ?_⟩
  · exact mem_get_history_fst hmem
  · exact mem_get_history_fst hmem

/-- C3 (witness): on a fresh tracker with `seq_len = 1` and first event
`(0, 0, 1, t=0)`, the contributed pair `(1, 0)` is absent from the pre-state subject-role row of entity 0, and indeed partner 1 is absent from the captured
subject-role history. -/
theorem claim_C3_witness :
    ((1, 0) ∉
      ((ensure_capacity (Tracker.init 1) (max 0 1)).sub_hist.getD 0 []).flatten) ∧
    (1 ∉ (process_event (Tracker.init 1) ⟨0, 0, 1, 0⟩).1.h_sub) := by
  have hno : ensure_capacity (Tracker.init 1) (max 0 1) = Tracker.init 1 :=
    ensure_capacity_of_le _ _ (by rw [init_sub_hist_length]; decide)
  have hyp : (1, 0) ∉
      ((ensure_capacity (Tracker.init 1) (max 0 1)).sub_hist.getD 0 []).flatten := by
    rw [hno, init_sub_hist, getD_replicate_of_lt _ _ (by decide : 0 < 5000)]
    decide
  exact ⟨hyp, (claim_C3_no_self_leakage (Tracker.init 1) ⟨0, 0, 1, 0⟩).2.2.1 hyp⟩

/-! ### The slot-count invariant (C4) -/

/-- Every entity row of both buffers has exactly `s` slots, and the
`seq_len` field of the tracker is `s`. -/
def slotInv (s : Nat) (tr : Tracker) : Prop :=
  tr.seq_len = s ∧ (∀ ent ∈ tr.sub_hist, ent.length = s) ∧
  (∀ ent ∈ tr.obj_hist, ent.length = s)

theorem appendToLastSlot_length (ent : EntityHist) (p : Nat × Nat) :
    (appendToLastSlot ent p).length = ent.length :=
  listModify_length _ _ _

theorem slotInv_init (s : Nat) : slotInv s (Tracker.init s) := by
  refine ⟨init_seq_len s, ?_, ?_⟩
  · rw [init_sub_hist]
    intro ent h
    rw [List.eq_of_mem_replicate h]
    exact List.length_replicate s _
  · rw [init_obj_hist]
    intro ent h
    rw [List.eq_of_mem_replicate h]
    exact List.length_replicate s _

theorem slotInv_ensure_capacity (s : Nat) (tr : Tracker) (n : Nat)
    (h : slotInv s tr) : slotInv s (ensure_capacity tr n) := by
  unfold ensure_capacity
  split
  · refine ⟨h.1, ?_, ?_⟩
    · intro ent hm
      rcases List.mem_append.mp hm with hm | hm
      · exact h.2.1 ent hm
      · rw [List.eq_of_mem_replicate hm, List.length_replicate, h.1]
    · intro ent hm
      rcases List.mem_append.mp hm with hm | hm
      · exact h.2.2 ent hm
      · rw [List.eq_of_mem_replicate hm, List.length_replicate, h.1]
  · exact h

theorem step_entries (s : Nat) (hist : Hist) (hs : 1 ≤ s)
    (h : ∀ ent ∈ hist, ent.length = s) : ∀ ent ∈ step hist, ent.length = s := by
  intro ent hm
  rcases List.mem_map.mp hm with ⟨x, hx, rfl⟩
  rw [List.length_append, List.length_drop, h x hx]
  have h1 : [([] : Slot)].length = 1 := rfl
  rw [h1]
  omega

theorem slotInv_advance (s : Nat) (tr : Tracker) (t : Nat) (hs : 1 ≤ s)
    (h : slotInv s tr) : slotInv s (advance_if_needed tr t) := by
  unfold advance_if_needed
  split
  · exact ⟨h.1, step_entries s _ hs h.2.1, step_entries s _ hs h.2.2⟩
  · exact h

theorem slotInv_record (s : Nat) (tr : Tracker) (a b c : Nat)
    (h : slotInv s tr) : slotInv s (record tr a b c) := by
  refine ⟨h.1, ?_, ?_⟩
  · rw [record_sub_hist]
    exact listModify_mem _ _ _ _ h.2.1
      (fun y hy => by rw [appendToLastSlot_length]; exact h.2.1 y hy)
  · rw [record_obj_hist]
    exact listModify_mem _ _ _ _ h.2.2
      (fun y hy => by rw [appendToLastSlot_length]; exact h.2.2 y hy)

theorem slotInv_process_event (s : Nat) (tr : Tracker) (e : Event) (hs : 1 ≤ s)
    (h : slotInv s tr) : slotInv s (process_event tr e).2 := by
  rw [process_event_state]
  exact slotInv_record s _ _ _ _
    (slotInv_advance s _ _ hs (slotInv_ensure_capacity s _ _ h))

theorem slotInv_foldl (s : Nat) (hs : 1 ≤ s) (events : List Event) :
    ∀ tr : Tracker, slotInv s tr →
      slotInv s (events.foldl (fun t e => (process_event t e).2) tr) := by
  induction events with
  | nil => intro tr h; simpa using h
  | cons e es ih =>
    intro tr h
    rw [List.foldl_cons]
    exact ih _ (slotInv_process_event s tr e hs h)

theorem c4_sub_hist_after :
    (process_event (Tracker.init 0) ⟨0, 0, 0, 1⟩).2.sub_hist =
      [[(0, 0)]] :: List.replicate 4999 [[]] := by
  rw [process_event_state]
  rw [ensure_capacity_of_le _ _ (by rw [init_sub_hist_length]; decide)]
  rw [advance_if_needed_of_gt _ _ (by decide)]
  rw [record_sub_hist]
  dsimp only
  rw [init_sub_hist, List.replicate_zero]
  simp only [step, List.map_replicate]
  rw [show (5000 : Nat) = 4999 + 1 from rfl, List.replicate_succ, listModify_zero_cons]
  rfl

/-- C4 (counterexample): with `seq_len = 0`, processing a single event with
timestamp 1 gives entity 0 one slot (the advance drops nothing and appends
one empty slot, then the record fills it), so its row no longer has exactly
`seq_len = 0` slots. -/
theorem claim_C4_counterexample :
    ¬ (∀ ent ∈ (process_event (Tracker.init 0) ⟨0, 0, 0, 1⟩).2.sub_hist,
        ent.length = (process_event (Tracker.init 0) ⟨0, 0, 0, 1⟩).2.seq_len) := by
  intro hall
  have hseq : (process_event (Tracker.init 0) ⟨0, 0, 0, 1⟩).2.seq_len = 0 := by
    rw [process_event_seq_len, init_seq_len]
  have hmem : [[(0, 0)]] ∈ (process_event (Tracker.init 0) ⟨0, 0, 0, 1⟩).2.sub_hist := by
    rw [c4_sub_hist_after]
    exact List.mem_cons_self _ _
  have hlen := hall _ hmem
  rw [hseq] at hlen
  exact absurd hlen (by decide)

/-- C4 (amended): for every `seq_len ≥ 1`, after any sequence of processed
events starting from a fresh tracker, every entity row present in either
buffer contains exactly `seq_len` slots. -/
theorem claim_C4_amended (s : Nat) (hs : 1 ≤ s) (events : List Event) :
    (∀ ent ∈ (run_events s events).sub_hist, ent.length = s) ∧
    (∀ ent ∈ (run_events s events).obj_hist, ent.length = s) := by
  have h := slotInv_foldl s hs events (Tracker.init s) (slotInv_init s)
  exact ⟨h.2.1, h.2.2⟩

/-- C4 (witness): the amended statement instantiated at `seq_len = 1` with a
two-event stream. -/
theorem claim_C4_witness :
    1 ≤ 1 ∧
    ((∀ ent ∈ (run_events 1 [⟨0, 0, 1, 0⟩, ⟨1, 0, 0, 1⟩]).sub_hist, ent.length = 1) ∧
     (∀ ent ∈ (run_events 1 [⟨0, 0, 1, 0⟩, ⟨1, 0, 0, 1⟩]).obj_hist, ent.length = 1)) :=
  ⟨by decide, claim_C4_amended 1 (by decide) [⟨0, 0, 1, 0⟩, ⟨1, 0, 0, 1⟩]⟩

/-! ### Relation filtering (C6) -/

/-- The description of `query` in the spec: scan the slots in order (oldest first),
keep the entries whose stored relation equals `rel`, and return each kept
entry as a (partner id, slot index) pair. -/
def spec_query (entity : EntityHist) (rel : Nat) : List (Nat × Nat) :=
  entity.enum.flatMap
    (fun p => (p.2.filter (fun q => q.2 == rel)).map (fun q => (q.1, p.1)))

theorem range_map_getD (entity : EntityHist) :
    (List.range entity.length).map (fun s => entity.getD s []) =
      entity.enum.map (fun p => p.2) := by
  apply List.ext_getElem
  · simp
  · intro n h1 h2
    have hn : n < entity.length := by simpa using h1
    simp only [List.getElem_map, List.getElem_range, List.getElem_enum]
    rw [List.getD_eq_getElem _ _ hn]

theorem range_map_ts (entity : EntityHist) :
    (List.range entity.length).map
        (fun s => List.replicate (entity.getD s []).length s) =
      entity.enum.map (fun p => List.replicate p.2.length p.1) := by
  apply List.ext_getElem
  · simp
  · intro n h1 h2
    have hn : n < entity.length := by simpa using h1
    simp only [List.getElem_map, List.getElem_range, List.getElem_enum]
    rw [List.getD_eq_getElem _ _ hn]

theorem zip_flatten_map (l : List γ) (f : γ → List α) (g : γ → List β)
    (h : ∀ x, (f x).length = (g x).length) :
    ((l.map f).flatten).zip ((l.map g).flatten) =
      (l.map (fun x => (f x).zip (g x))).flatten := by
  induction l with
  | nil => rfl
  | cons a as ih =>
    simp only [List.map_cons, List.flatten_cons]
    rw [List.zip_append (h a), ih]

theorem zip_replicate_slot (l : List α) (s : β) :
    l.zip (List.replicate l.length s) = l.map (fun q => (q, s)) := by
  induction l with
  | nil => rfl
  | cons a as ih =>
    simp only [List.length_cons, List.replicate_succ, List.zip_cons_cons,
      List.map_cons]
    rw [ih]

theorem filter_flatten_map (l : List γ) (F : γ → List α) (pr : α → Bool) :
    ((l.map F).flatten).filter pr =
      (l.map (fun x => (F x).filter pr)).flatten := by
  induction l with
  | nil => rfl
  | cons a as ih =>
    simp only [List.map_cons, List.flatten_cons, List.filter_append]
    rw [ih]

theorem map_flatten_map (l : List γ) (F : γ → List α) (m : α → β) :
    ((l.map F).flatten).map m = (l.map (fun x => (F x).map m)).flatten := by
  induction l with
  | nil => rfl
  | cons a as ih =>
    simp only [List.map_cons, List.flatten_cons, List.map_append]
    rw [ih]

theorem get_history_from_spec (entity : EntityHist) (rel : Nat) :
    get_history_from entity.length entity rel =
      ((spec_query entity rel).map Prod.fst,
       (spec_query entity rel).map Prod.snd) := by
  unfold get_history_from
  dsimp only
  rw [List.flatMap_def, List.flatMap_def, range_map_getD, range_map_ts]
  rw [zip_flatten_map _ _ _ (fun p => (List.length_replicate _ _).symm)]
  have hz : (entity.enum.map (fun p => p.2.zip (List.replicate p.2.length p.1))) =
      entity.enum.map (fun p => p.2.map (fun q => (q, p.1))) :=
    List.map_congr_left (fun p hp => zip_replicate_slot p.2 p.1)
  rw [hz]
  rw [filter_flatten_map, map_flatten_map, map_flatten_map]
  unfold spec_query
  rw [List.flatMap_def, map_flatten_map, map_flatten_map]
  refine congrArg₂ Prod.mk ?_ ?_
  · congr 1
    apply List.map_congr_left
    intro p hp
    simp only [List.filter_map, List.map_map]
    rfl
  · congr 1
    apply List.map_congr_left
    intro p hp
    simp only [List.filter_map, List.map_map]
    rfl

/-- C6: for an in-capacity entity whose row has `seq_len` slots, the query
returns exactly the stored (partner, slot-index) entries whose stored
relation equals `rel`, in slot order (oldest slot first); and whenever all
of the slots of the entity are empty — in particular for an entity never
recorded — both returned sequences are empty. -/
theorem claim_C6_relation_filter (seq_len : Nat) (hist : Hist) (node rel : Nat)
    (_hnode : node < hist.length)
    (hlen : (hist.getD node []).length = seq_len) :
    (get_history seq_len hist node rel =
      ((spec_query (hist.getD node []) rel).map Prod.fst,
       (spec_query (hist.getD node []) rel).map Prod.snd)) ∧
    ((∀ slot ∈ hist.getD node [], slot = []) →
      get_history seq_len hist node rel = ([], [])) := by
  constructor
  · rw [get_history, ← hlen]
    exact get_history_from_spec _ rel
  · intro hempty
    rw [get_history]
    exact get_history_from_all_empty seq_len rel _ hempty

/-- C6 (witness): a one-entity buffer with two slots holding relations 1 and
0; the query for relation 0 keeps only the matching entries, in slot order:
partners `[4, 5]` with slot indices `[0, 1]`. -/
theorem claim_C6_witness :
    0 < ([[[(3, 1), (4, 0)], [(5, 0)]]] : Hist).length ∧
    (([[[(3, 1), (4, 0)], [(5, 0)]]] : Hist).getD 0 []).length = 2 ∧
    get_history 2 [[[(3, 1), (4, 0)], [(5, 0)]]] 0 0 =
      ((spec_query (([[[(3, 1), (4, 0)], [(5, 0)]]] : Hist).getD 0 []) 0).map Prod.fst,
       (spec_query (([[[(3, 1), (4, 0)], [(5, 0)]]] : Hist).getD 0 []) 0).map Prod.snd) :=
  ⟨by decide, by decide,
    (claim_C6_relation_filter 2 [[[(3, 1), (4, 0)], [(5, 0)]]] 0 0
      (by decide) (by decide)).1⟩

/-! ### Neighbor aggregation in the scorer (C9) -/

/-- Elementwise sum of rational vectors of width `width` (zero vector for an
empty collection). -/
def vecSum (width : Nat) (vs : List (List ℚ)) : List ℚ :=
  vs.foldr (fun v w => List.zipWith (fun x y => x + y) v w)
    (List.replicate width 0)

/-- Scale a rational vector. -/
def vecSmul (c : ℚ) (v : List ℚ) : List ℚ := v.map (fun x => c * x)

/-- Modelled from the spec: `torch_scatter.scatter_mean(src, index, dim=0,
dim_size=n)` is an external library call (not part of this repository); per
its documented semantics it averages the rows of `src` whose index equals
each bucket `b < n`, and a bucket that receives no rows gets the zero
vector (a zero sum divided by a count clamped to at least one). -/
def scatter_mean (src : List (List ℚ)) (index : List Nat)
    (dim_size width : Nat) : List (List ℚ) :=
  (List.range dim_size).map (fun b =>
    let contrib := ((src.zip index).filter (fun p => p.2 == b)).map Prod.fst
    vecSmul (((max contrib.length 1 : Nat) : ℚ))⁻¹ (vecSum width contrib))

/-- The neighbor-aggregation step for one role in `RENet.forward`:
`scatter_mean(self.ent[h], h_t + h_batch * seq_len, dim=0,
dim_size=batch_size * seq_len)`; row `b * seq_len + s` of the result is the
(example `b`, slot `s`) bucket of the `(batch, seq_len, hidden_channels)`
output tensor. -/
def neighbor_aggregate (ent : List (List ℚ))
    (partners slots batchTags : List Nat)
    (batch_size seq_len width : Nat) : List (List ℚ) :=
  scatter_mean (partners.map (fun i => ent.getD i (List.replicate width 0)))
    (List.zipWith (fun t g => t + g * seq_len) slots batchTags)
    (batch_size * seq_len) width

/-- The per-example history columns of the batch consumed by
`RENet.forward` (`data.h_sub`, `data.h_sub_t`, `data.h_sub_batch`, and the
object-role counterparts). -/
structure ScorerBatch where
  h_sub : List Nat
  h_sub_t : List Nat
  h_sub_batch : List Nat
  h_obj : List Nat
  h_obj_t : List Nat
  h_obj_batch : List Nat

/-- The two dense neighbor tensors computed at the top of `RENet.forward`,
one per role. -/
def forward_neighbor_tensors (ent : List (List ℚ)) (d : ScorerBatch)
    (batch_size seq_len width : Nat) : List (List ℚ) × List (List ℚ) :=
  (neighbor_aggregate ent d.h_sub d.h_sub_t d.h_sub_batch
     batch_size seq_len width,
   neighbor_aggregate ent d.h_obj d.h_obj_t d.h_obj_batch
     batch_size seq_len width)

theorem scatter_mean_empty_bucket (src : List (List ℚ)) (index : List Nat)
    (dim_size width b : Nat) (hb : b < dim_size) (hnot : b ∉ index) :
    (scatter_mean src index dim_size width).getD b [] =
      List.replicate width 0 := by
  unfold scatter_mean
  rw [List.getD_eq_getElem _ _ (by simpa using hb)]
  rw [List.getElem_map, List.getElem_range]
  dsimp only
  have hfil : ((src.zip index).filter (fun p => p.2 == b)) = [] := by
    rw [List.filter_eq_nil_iff]
    intro p hp
    have hmem := (List.of_mem_zip hp).2
    simp only [beq_iff_eq]
    intro hc
    exact hnot (hc ▸ hmem)
  rw [hfil]
  have hsum : vecSum width (([] : List ((List ℚ) × Nat)).map Prod.fst) =
      List.replicate width 0 := rfl
  rw [hsum]
  unfold vecSmul
  rw [List.map_replicate, mul_zero]

/-- C9: every (example, slot) bucket that receives no historical partners
yields the zero vector of width `hidden_channels` in the aggregated
neighbor tensor — no error — for both the subject-role and the object-role
aggregations. -/
theorem claim_C9_empty_bucket (ent : List (List ℚ)) (d : ScorerBatch)
    (batch_size seq_len width b : Nat)
    (hb : b < batch_size * seq_len)
    (hsub : b ∉ List.zipWith (fun t g => t + g * seq_len) d.h_sub_t d.h_sub_batch)
    (hobj : b ∉ List.zipWith (fun t g => t + g * seq_len) d.h_obj_t d.h_obj_batch) :
    (forward_neighbor_tensors ent d batch_size seq_len width).1.getD b [] =
      List.replicate width 0 ∧
    (forward_neighbor_tensors ent d batch_size seq_len width).2.getD b [] =
      List.replicate width 0 :=
  ⟨scatter_mean_empty_bucket _ _ _ _ _ hb hsub,
   scatter_mean_empty_bucket _ _ _ _ _ hb hobj⟩

/-- C9 (witness): a batch of one example, one slot and one hidden channel
with no historical partners in either role: both buckets are the zero
vector. -/
theorem claim_C9_witness :
    0 < 1 * 1 ∧
    (0 ∉ List.zipWith (fun t g => t + g * 1) ([] : List Nat) ([] : List Nat)) ∧
    (forward_neighbor_tensors [[1]] ⟨[], [], [], [], [], []⟩ 1 1 1).1.getD 0 [] =
      List.replicate 1 0 ∧
    (forward_neighbor_tensors [[1]] ⟨[], [], [], [], [], []⟩ 1 1 1).2.getD 0 [] =
      List.replicate 1 0 := by
  refine ⟨by decide, by decide, ?_⟩
  exact claim_C9_empty_bucket [[1]] ⟨[], [], [], [], [], []⟩ 1 1 1 0
    (by decide) (by decide) (by decide)
